import Mathlib

/-!
# The HTTP layer of the social tournament service

A shallow embedding of `pkg/server/server.go`: the `Service` interface, the five
handlers of `Server`, and the routing table built by `NewServer`.

Conventions of the embedding.

* A Go `error` is `Option Error` (`none` is `nil`); a Go result `(v, err)` is a pair.
* The `float64` of the source is a type parameter `F`: the handlers only move such
  values from the decoded body into the service call.
* `context.Context` is a type parameter `Ctx`; the handlers pass `req.Context()` on.
* The service is stateful. A method takes the state of the service and returns the
  new one. Every call made through the interface is appended to a trace, which is what
  `Times(n)` of the mock in `user_test.go` counts.
* `encoding/json` is a collaborator outside the repository and is a parameter
  (`JSON`). The response writer is the `httptest.ResponseRecorder` the tests use.
* Calls of `log.Printf` and `log.Println` write to the process log only and are left out.
-/

namespace server

/-! ## Data -/

/-- The message of a Go error value. -/
abbrev Error := String

/-- A Go value of type `error`; `none` is `nil`. -/
abbrev GoError := Option Error

/-- The bytes of a request or response body. -/
abbrev Body := String

/-- Modelled from the spec: the record `sts.User` / `storage.User`, whose declaration is
not among the sources. Section 3 of the spec lists its fields: `id`, `name`, `balance`. -/
structure User (F : Type) where
  ID : String
  Name : String
  Balance : F
deriving DecidableEq, Repr

/-- Modelled from the spec: the record `storage.Tournament`, whose declaration is not
among the sources. Section 3 of the spec lists its fields. -/
structure Tournament (F : Type) where
  ID : String
  Name : String
  Deposit : F
  Participants : List String
  Pool : F
  WinnerID : Option String
  Settled : Bool
deriving DecidableEq, Repr

/-- The interface `Service`: every method of the source, over a service state `σ`. -/
structure Service (F Ctx σ : Type) where
  AddUser : Ctx → String → σ → (String × GoError) × σ
  GetUser : Ctx → String → σ → (Option (User F) × GoError) × σ
  DeleteUser : Ctx → String → σ → GoError × σ
  TakeUserBalance : Ctx → String → F → σ → GoError × σ
  FundUserBalance : Ctx → String → F → σ → GoError × σ
  AddTournament : Ctx → String → F → σ → (String × GoError) × σ
  GetTournament : Ctx → String → σ → (Option (Tournament F) × GoError) × σ
  DeleteTournament : Ctx → String → σ → GoError × σ
  CalculateTournamentPrize : Ctx → String → σ → GoError × σ
  SetTournamentWinner : Ctx → String → String → σ → GoError × σ
  AddUserToTournamentList : Ctx → String → String → σ → GoError × σ

/-- One call of a method of `Service`, with its arguments. -/
inductive Call (F Ctx : Type) where
  | AddUser (ctx : Ctx) (name : String)
  | GetUser (ctx : Ctx) (id : String)
  | DeleteUser (ctx : Ctx) (id : String)
  | TakeUserBalance (ctx : Ctx) (id : String) (points : F)
  | FundUserBalance (ctx : Ctx) (id : String) (points : F)
  | AddTournament (ctx : Ctx) (name : String) (deposit : F)
  | GetTournament (ctx : Ctx) (id : String)
  | DeleteTournament (ctx : Ctx) (id : String)
  | CalculateTournamentPrize (ctx : Ctx) (id : String)
  | SetTournamentWinner (ctx : Ctx) (tournamentID userID : String)
  | AddUserToTournamentList (ctx : Ctx) (tournamentID userID : String)
deriving DecidableEq, Repr

/-- Whether a call is one of the six tournament operations of the interface. -/
def Call.isTournament {F Ctx : Type} : Call F Ctx → Bool
  | .AddTournament _ _ _ => true
  | .GetTournament _ _ => true
  | .DeleteTournament _ _ => true
  | .CalculateTournamentPrize _ _ => true
  | .SetTournamentWinner _ _ _ => true
  | .AddUserToTournamentList _ _ _ => true
  | _ => false

/-- The service behind the interface value: its state and the trace of calls made so far. -/
structure World (F Ctx σ : Type) where
  state : σ
  calls : List (Call F Ctx)

/-- A service that has not been called yet. -/
def World.fresh {F Ctx σ : Type} (st : σ) : World F Ctx σ := ⟨st, []⟩

/-! ### Calls through the interface -/

/-- The call `s.service.AddUser(ctx, name)`. -/
def Service.callAddUser {F Ctx σ : Type} (svc : Service F Ctx σ) (ctx : Ctx) (name : String)
    (m : World F Ctx σ) : (String × GoError) × World F Ctx σ :=
  ((svc.AddUser ctx name m.state).1,
    ⟨(svc.AddUser ctx name m.state).2, m.calls ++ [Call.AddUser ctx name]⟩)

/-- The call `s.service.GetUser(ctx, id)`. -/
def Service.callGetUser {F Ctx σ : Type} (svc : Service F Ctx σ) (ctx : Ctx) (id : String)
    (m : World F Ctx σ) : (Option (User F) × GoError) × World F Ctx σ :=
  ((svc.GetUser ctx id m.state).1,
    ⟨(svc.GetUser ctx id m.state).2, m.calls ++ [Call.GetUser ctx id]⟩)

/-- The call `s.service.DeleteUser(ctx, id)`. -/
def Service.callDeleteUser {F Ctx σ : Type} (svc : Service F Ctx σ) (ctx : Ctx) (id : String)
    (m : World F Ctx σ) : GoError × World F Ctx σ :=
  ((svc.DeleteUser ctx id m.state).1,
    ⟨(svc.DeleteUser ctx id m.state).2, m.calls ++ [Call.DeleteUser ctx id]⟩)

/-- The call `s.service.TakeUserBalance(ctx, id, points)`. -/
def Service.callTakeUserBalance {F Ctx σ : Type} (svc : Service F Ctx σ) (ctx : Ctx)
    (id : String) (points : F) (m : World F Ctx σ) : GoError × World F Ctx σ :=
  ((svc.TakeUserBalance ctx id points m.state).1,
    ⟨(svc.TakeUserBalance ctx id points m.state).2,
      m.calls ++ [Call.TakeUserBalance ctx id points]⟩)

/-- The call `s.service.FundUserBalance(ctx, id, points)`. -/
def Service.callFundUserBalance {F Ctx σ : Type} (svc : Service F Ctx σ) (ctx : Ctx)
    (id : String) (points : F) (m : World F Ctx σ) : GoError × World F Ctx σ :=
  ((svc.FundUserBalance ctx id points m.state).1,
    ⟨(svc.FundUserBalance ctx id points m.state).2,
      m.calls ++ [Call.FundUserBalance ctx id points]⟩)

/-! ## net/http -/

def StatusOK : Nat := 200
def StatusBadRequest : Nat := 400
def StatusInternalServerError : Nat := 500

/-- The request as the handlers read it: `req.Body`, `req.Context()`, the method and the
path the router matches on, and `mux.Vars(req)`, the variables the router bound. -/
structure Request (Ctx : Type) where
  Method : String
  Path : String
  Body : Body
  ctx : Ctx
  Vars : List (String × String) := []

/-- The recorder `httptest.ResponseRecorder`: `Code` starts at 200 and is what
`Result().StatusCode` reports. -/
structure ResponseRecorder where
  Code : Nat := 200
  wroteHeader : Bool := false
  Body : Body := ""
deriving DecidableEq, Repr

/-- The constructor `httptest.NewRecorder()`. -/
def NewRecorder : ResponseRecorder := {}

/-- The method `WriteHeader(code)`: the first call fixes the status, later calls are ignored. -/
def ResponseRecorder.WriteHeader (w : ResponseRecorder) (code : Nat) : ResponseRecorder :=
  if w.wroteHeader then w else { w with Code := code, wroteHeader := true }

/-- The method `Write(buf)`: sends the header with status 200 when none was sent, then
appends to the body. The recorder never fails. -/
def ResponseRecorder.Write (w : ResponseRecorder) (buf : server.Body) : ResponseRecorder :=
  let w1 := if w.wroteHeader then w else w.WriteHeader StatusOK
  { w1 with Body := w1.Body ++ buf }

/-- The status of the response, `w.Result().StatusCode`. -/
def ResponseRecorder.StatusCode (w : ResponseRecorder) : Nat := w.Code

/-! ## encoding/json -/

/-- The functions of `encoding/json` the handlers use, one per Go type that is decoded
or encoded.

* `decodeUser` is `Decode` into an `sts.User`, `decodePoints` is `Decode` into
  `struct{Points float64}` (the value of its one field).
* `marshalID` is the encoding of `struct{ID string}` with the tag `json:"id"`. It is
  total: a Go string always has an encoding.
* `marshalUser` is the encoding of a `*storage.User`, which may be `nil`. It can fail:
  the library refuses a `float64` that is not finite.
* `Indent` is `json.Indent` with a prefix and an indent string.
* `unmarshalID` reads a body back into `struct{ID string}`, as the test does. -/
structure JSON (F : Type) where
  decodeUser : Body → Except Error (User F)
  decodePoints : Body → Except Error F
  marshalID : String → Body
  marshalUser : Option (User F) → Except Error Body
  Indent : Body → String → String → Body
  unmarshalID : Body → Except Error String

/-- An encoder `json.Encoder` writing to a response; only its indentation is state. -/
structure Encoder where
  indentPrefix : String := ""
  indentValue : String := ""

/-- The constructor `json.NewEncoder(w)`. -/
def NewEncoder : Encoder := {}

/-- The method `SetIndent(prefix, indent)`. -/
def Encoder.SetIndent (_enc : Encoder) (pre indent : String) : Encoder :=
  { indentPrefix := pre, indentValue := indent }

/-- The method `Encode(v)`: marshal `v`, append a newline, indent when an indentation is
set, and write the result. When marshalling fails nothing is written. -/
def Encoder.Encode {F α : Type} (J : JSON F) (enc : Encoder) (marshal : α → Except Error Body)
    (w : ResponseRecorder) (v : α) : ResponseRecorder × GoError :=
  match marshal v with
  | .error e => (w, some e)
  | .ok b =>
    let b1 := b ++ "\n"
    let b2 := if enc.indentPrefix ≠ "" ∨ enc.indentValue ≠ "" then
      J.Indent b1 enc.indentPrefix enc.indentValue else b1
    (w.Write b2, none)

/-! ## The server -/

/-- The five handler methods of `Server`. -/
inductive HandlerName where
  | createNewUser
  | getUserInfo
  | removeUser
  | takeUserBonusPoints
  | addUserBonusPoints
deriving DecidableEq, Repr

/-- One route of the router: `router.HandleFunc(tpl, h).Methods(method)`. -/
structure Route where
  tpl : String
  handler : HandlerName
  method : String
deriving DecidableEq, Repr

/-- The struct `Server`: the router (its routes, in the order they were added) and the
service. -/
structure Server (F Ctx σ : Type) where
  Handler : List Route
  service : Service F Ctx σ

/-- The constructor `NewServer`. -/
def NewServer {F Ctx σ : Type} (db : Service F Ctx σ) : Server F Ctx σ :=
  { service := db
    Handler :=
      [ ⟨"/user", .createNewUser, "POST"⟩,
        ⟨"/user/{id}", .getUserInfo, "GET"⟩,
        ⟨"/user/{id}", .removeUser, "DELETE"⟩,
        ⟨"/user/{id}/take", .takeUserBonusPoints, "POST"⟩,
        ⟨"/user/{id}/fund", .addUserBonusPoints, "POST"⟩ ] }

section handlers

variable {F Ctx σ : Type}

/-- The handler `createNewUser`. -/
def Server.createNewUser (J : JSON F) (s : Server F Ctx σ) (w : ResponseRecorder)
    (req : Request Ctx) (m : World F Ctx σ) : ResponseRecorder × World F Ctx σ :=
  match J.decodeUser req.Body with
  | .error _ => (w.WriteHeader StatusBadRequest, m)
  | .ok user =>
    match s.service.callAddUser req.ctx user.Name m with
    | ((_, some _), m1) => (w.WriteHeader StatusInternalServerError, m1)
    | ((userID, none), m1) =>
      match NewEncoder.Encode J (fun id => .ok (J.marshalID id)) w userID with
      | (w1, some _) => (w1.WriteHeader StatusInternalServerError, m1)
      | (w1, none) => (w1, m1)

/-- The handler `getUserInfo`. -/
def Server.getUserInfo (J : JSON F) (s : Server F Ctx σ) (w : ResponseRecorder)
    (req : Request Ctx) (m : World F Ctx σ) : ResponseRecorder × World F Ctx σ :=
  match req.Vars.lookup "id" with
  | none => (w.WriteHeader StatusBadRequest, m)
  | some userID =>
    match s.service.callGetUser req.ctx userID m with
    | ((_, some _), m1) => (w.WriteHeader StatusInternalServerError, m1)
    | ((userData, none), m1) =>
      match (NewEncoder.SetIndent "" " ").Encode J J.marshalUser w userData with
      | (w1, some _) => (w1.WriteHeader StatusInternalServerError, m1)
      | (w1, none) => (w1, m1)

/-- The handler `removeUser`. -/
def Server.removeUser (s : Server F Ctx σ) (w : ResponseRecorder)
    (req : Request Ctx) (m : World F Ctx σ) : ResponseRecorder × World F Ctx σ :=
  match req.Vars.lookup "id" with
  | none => (w.WriteHeader StatusBadRequest, m)
  | some userID =>
    match s.service.callDeleteUser req.ctx userID m with
    | (some _, m1) => (w.WriteHeader StatusInternalServerError, m1)
    | (none, m1) => (w, m1)

/-- The handler `takeUserBonusPoints`. -/
def Server.takeUserBonusPoints (J : JSON F) (s : Server F Ctx σ) (w : ResponseRecorder)
    (req : Request Ctx) (m : World F Ctx σ) : ResponseRecorder × World F Ctx σ :=
  match J.decodePoints req.Body with
  | .error _ => (w.WriteHeader StatusBadRequest, m)
  | .ok points =>
    match req.Vars.lookup "id" with
    | none => (w.WriteHeader StatusBadRequest, m)
    | some userID =>
      match s.service.callTakeUserBalance req.ctx userID points m with
      | (some _, m1) => (w.WriteHeader StatusInternalServerError, m1)
      | (none, m1) => (w, m1)

/-- The handler `addUserBonusPoints`. -/
def Server.addUserBonusPoints (J : JSON F) (s : Server F Ctx σ) (w : ResponseRecorder)
    (req : Request Ctx) (m : World F Ctx σ) : ResponseRecorder × World F Ctx σ :=
  match J.decodePoints req.Body with
  | .error _ => (w.WriteHeader StatusBadRequest, m)
  | .ok points =>
    match req.Vars.lookup "id" with
    | none => (w.WriteHeader StatusBadRequest, m)
    | some userID =>
      match s.service.callFundUserBalance req.ctx userID points m with
      | (some _, m1) => (w.WriteHeader StatusInternalServerError, m1)
      | (none, m1) => (w, m1)

/-- The method value a route holds, applied to a response writer and a request. -/
def Server.handle (J : JSON F) (s : Server F Ctx σ) : HandlerName → ResponseRecorder →
    Request Ctx → World F Ctx σ → ResponseRecorder × World F Ctx σ
  | .createNewUser => s.createNewUser J
  | .getUserInfo => s.getUserInfo J
  | .removeUser => s.removeUser
  | .takeUserBonusPoints => s.takeUserBonusPoints J
  | .addUserBonusPoints => s.addUserBonusPoints J

end handlers

/-! ## The router

`mux.NewRouter()` with routes added by `HandleFunc(tpl, h).Methods(method)`. A template
is cut at its slashes; a piece `{name}` is a variable, which the router compiles to
`[^/]+` (one or more characters other than a slash), any other piece is literal text.
The router tries the routes in the order they were added and takes the first whose
method and path both match, binding the variables. Before matching, the router answers
a path that is not in its cleaned form with a redirect to the cleaned path. -/

/-- The pieces of a path between its slashes: `/user/7` gives `["", "user", "7"]`. -/
def splitPath : List Char → List (List Char)
  | [] => [[]]
  | c :: cs =>
    if c = '/' then [] :: splitPath cs
    else match splitPath cs with
      | [] => [[c]]
      | s :: ss => (c :: s) :: ss

/-- One piece of a route template. -/
inductive Seg where
  | lit (text : List Char)
  | var (name : List Char)
deriving DecidableEq, Repr

/-- A piece of a template read as a variable `{name}` or as literal text. -/
def parseSeg (s : List Char) : Seg :=
  if s.head? = some '{' ∧ s.getLast? = some '}' ∧ 2 ≤ s.length then
    Seg.var ((s.drop 1).dropLast)
  else Seg.lit s

/-- The compiled form of a route template. -/
def parseTemplate (tpl : String) : List Seg := (splitPath tpl.data).map parseSeg

/-- Match the pieces of a path against a compiled template, collecting the variables. -/
def matchSegs : List Seg → List (List Char) → Option (List (String × String))
  | [], [] => some []
  | Seg.lit t :: segs, p :: ps => if t = p then matchSegs segs ps else none
  | Seg.var n :: segs, p :: ps =>
    if p = [] then none
    else (matchSegs segs ps).map (fun vars => (String.mk n, String.mk p) :: vars)
  | _, _ => none

/-- The method `Route.Match`: the method matcher and the path template of one route. -/
def Route.Match (r : Route) (method path : String) : Option (List (String × String)) :=
  if r.method = method then matchSegs (parseTemplate r.tpl) (splitPath path.data) else none

/-- The method `Router.Match`: the first route that matches, with the variables it binds. -/
def Router.Match : List Route → String → String → Option (HandlerName × List (String × String))
  | [], _, _ => none
  | r :: rs, method, path =>
    match r.Match method path with
    | some vars => some (r.handler, vars)
    | none => Router.Match rs method path

/-- Whether a path equals its cleaned form (`cleanPath` of the router): it starts with a
slash, and has no empty piece but a last one, and no piece `.` or `..`. -/
def isCleanPath (path : String) : Bool :=
  match splitPath path.data with
  | [] => false
  | first :: rest =>
    first = [] && rest ≠ [] && rest.dropLast.all (fun s => s ≠ []) &&
      rest.all (fun s => s ≠ ['.'] && s ≠ ['.', '.'])

/-- The method `ServeHTTP` of the router embedded in `Server`, as far as the handlers of
the server are concerned: the handler of the matching route runs on the request with
its variables bound. `none`: the router answers by itself (a redirect to the cleaned
path, not found, method not allowed) and no handler of the server runs. -/
def Server.ServeHTTP {F Ctx σ : Type} (J : JSON F) (s : Server F Ctx σ) (w : ResponseRecorder)
    (req : Request Ctx) (m : World F Ctx σ) : Option (ResponseRecorder × World F Ctx σ) :=
  if isCleanPath req.Path then
    match Router.Match s.Handler req.Method req.Path with
    | some (h, vars) => some (s.handle J h w { req with Vars := vars } m)
    | none => none
  else none

/-! ## The balance ledger -/

/-- Modelled from the spec: the error kinds of section 7 that the balance ledger of
section 4.2 returns. The implementation of the service is not among the sources. -/
inductive LedgerError where
  | NotFound
  | InvalidArgument
  | InsufficientFunds
deriving DecidableEq, Repr

/-- Modelled from the spec: the entity store of section 4.1 restricted to users,
a key-addressed map from user id to user record; the balance is a rational number. -/
abbrev Store := String → Option (User ℚ)

/-- Modelled from the spec: `updateIfPresent(id, mutatorFn)` of section 4.1. It reads the
current value, applies the transformation and writes the result back; it fails with
`NotFound` or with the error of the transformation, and then writes nothing. -/
def Store.updateIfPresent (s : Store) (id : String)
    (mutatorFn : User ℚ → Except LedgerError (User ℚ)) : Except LedgerError (User ℚ) × Store :=
  match s id with
  | none => (.error .NotFound, s)
  | some u =>
    match mutatorFn u with
    | .error e => (.error e, s)
    | .ok u1 => (.ok u1, Function.update s id (some u1))

/-- Modelled from the spec: `take(userID, amount)` of section 4.2, the core of
`TakeUserBalance`. It requires `amount >= 0`, checks `balance >= amount` inside the
update and subtracts; it fails with `InsufficientFunds` when the check fails. -/
def take (s : Store) (userID : String) (amount : ℚ) : Except LedgerError (User ℚ) × Store :=
  if amount < 0 then (.error .InvalidArgument, s)
  else s.updateIfPresent userID (fun u =>
    if u.Balance ≥ amount then .ok { u with Balance := u.Balance - amount }
    else .error .InsufficientFunds)

/-- The balance of a user of the store, when the user exists. -/
def balance (s : Store) (userID : String) : Option ℚ := (s userID).map (·.Balance)

/-- The invariant of section 3: every balance in the store is non-negative. -/
def Store.nonNegative (s : Store) : Prop := ∀ id u, s id = some u → 0 ≤ u.Balance

/-! ## Sample collaborators

Concrete stand-ins for the collaborators, on which the handlers can be run. -/

/-- Sample values for a `float64`: an integer, or the infinity that `encoding/json`
refuses to encode. -/
inductive Num where
  | int (n : Int)
  | inf
deriving DecidableEq, Repr

/-- The text between a given start and end, when the input has that shape. -/
def between (pre post input : List Char) : Option (List Char) :=
  if pre.isPrefixOf input ∧ post.isSuffixOf (input.drop pre.length) then
    some ((input.drop pre.length).take (input.length - pre.length - post.length))
  else none

/-- A natural number read from its decimal digits. -/
def readNat (ds : List Char) : Option Nat :=
  if ds ≠ [] ∧ ds.all (fun c => c.isDigit) then
    some (ds.foldl (fun n c => 10 * n + (c.toNat - 48)) 0)
  else none

/-- An integer read from its decimal digits with an optional minus sign. -/
def readInt : List Char → Option Int
  | '-' :: ds => (readNat ds).map (fun n => -(n : Int))
  | ds => (readNat ds).map (fun n => (n : Int))

/-- A small codec in the place of `encoding/json`: objects with the one expected field,
strings without escapes, whole numbers. A body `{"name":"n"}` decodes to the user named
`n`, the body `{}` to the user with the empty name, a body `{"points":k}` to `k`; an empty
body does not decode. `Indent` leaves its input as it is. In the literals below `\x7b`
and `\x7d` are the two braces. -/
def sampleJSON : JSON Num where
  decodeUser b :=
    match between "\x7b\"name\":\"".data "\"\x7d".data b.data with
    | some name => .ok ⟨"", String.mk name, Num.int 0⟩
    | none => if b = "\x7b\x7d" then .ok ⟨"", "", Num.int 0⟩ else .error "cannot decode"
  decodePoints b :=
    match (between "\x7b\"points\":".data "\x7d".data b.data).bind readInt with
    | some n => .ok (Num.int n)
    | none => .error "cannot decode"
  marshalID id := "\x7b\"id\":\"" ++ id ++ "\"\x7d"
  marshalUser
    | none => .ok "null"
    | some ⟨id, name, Num.int n⟩ =>
      .ok ("\x7b\"id\":\"" ++ id ++ "\",\"name\":\"" ++ name ++ "\",\"balance\":"
        ++ toString n ++ "\x7d")
    | some ⟨_, _, Num.inf⟩ => .error "json: unsupported value: +Inf"
  Indent b _ _ := b
  unmarshalID b :=
    match between "\x7b\"id\":\"".data "\"\x7d\n".data b.data with
    | some id => .ok (String.mk id)
    | none => .error "cannot decode"

/-- A test double in the manner of `storage.NewMockService`: every method answers with
a fixed result and keeps no state. -/
def mockService (addUser : String × GoError) (getUser : Option (User Num) × GoError)
    (err : GoError) : Service Num Unit Unit where
  AddUser _ _ st := (addUser, st)
  GetUser _ _ st := (getUser, st)
  DeleteUser _ _ st := (err, st)
  TakeUserBalance _ _ _ st := (err, st)
  FundUserBalance _ _ _ st := (err, st)
  AddTournament _ _ _ st := (("", err), st)
  GetTournament _ _ st := ((none, err), st)
  DeleteTournament _ _ st := (err, st)
  CalculateTournamentPrize _ _ st := (err, st)
  SetTournamentWinner _ _ _ st := (err, st)
  AddUserToTournamentList _ _ _ st := (err, st)

/-- A store with one user, `u1`, holding a balance of 100. -/
def sampleStore : Store := fun id => if id = "u1" then some ⟨"u1", "Gennadiy", 100⟩ else none

/-- The request of `TestCreateNewUser_Success`: `POST /user` with a name in the body. -/
def createRequest (name : String) : Request Unit :=
  { Method := "POST", Path := "/user", Body := "\x7b\"name\":\"" ++ name ++ "\"\x7d", ctx := () }

/-- The request of `TestCreateNewUser_Bad_Req`: `POST /user` with an empty body. -/
def emptyRequest : Request Unit :=
  { Method := "POST", Path := "/user", Body := "", ctx := () }

/-- A request as it reaches the router: no variable is bound yet. -/
def routedRequest (method path body : String) : Request Unit :=
  { Method := method, Path := path, Body := body, ctx := () }

/-- A request on a user: the router has bound `id`. -/
def userRequest (method path body id : String) : Request Unit :=
  { Method := method, Path := path, Body := body, ctx := (), Vars := [("id", id)] }

/-! ## The recorder and the encoder -/

section lemmas

variable {F Ctx σ : Type}

theorem NewRecorder_Write (buf : Body) :
    NewRecorder.Write buf = ⟨200, true, buf⟩ := by
  simp [ResponseRecorder.Write, ResponseRecorder.WriteHeader, NewRecorder, StatusOK]

/-! ## What each handler returns, branch by branch -/

theorem createNewUser_bad_body (J : JSON F) (s : Server F Ctx σ) (w : ResponseRecorder)
    (req : Request Ctx) (m : World F Ctx σ) (e : Error) (h : J.decodeUser req.Body = .error e) :
    s.createNewUser J w req m = (w.WriteHeader StatusBadRequest, m) := by
  simp [Server.createNewUser, h]

theorem createNewUser_store_error (J : JSON F) (s : Server F Ctx σ) (w : ResponseRecorder)
    (req : Request Ctx) (m : World F Ctx σ) (user : User F) (id : String) (e : Error) (st : σ)
    (h : J.decodeUser req.Body = .ok user)
    (hs : s.service.AddUser req.ctx user.Name m.state = ((id, some e), st)) :
    s.createNewUser J w req m =
      (w.WriteHeader StatusInternalServerError,
        ⟨st, m.calls ++ [Call.AddUser req.ctx user.Name]⟩) := by
  simp [Server.createNewUser, h, Service.callAddUser, hs]

theorem createNewUser_ok (J : JSON F) (s : Server F Ctx σ) (w : ResponseRecorder)
    (req : Request Ctx) (m : World F Ctx σ) (user : User F) (id : String) (st : σ)
    (h : J.decodeUser req.Body = .ok user)
    (hs : s.service.AddUser req.ctx user.Name m.state = ((id, none), st)) :
    s.createNewUser J w req m =
      (w.Write (J.marshalID id ++ "\n"), ⟨st, m.calls ++ [Call.AddUser req.ctx user.Name]⟩) := by
  simp [Server.createNewUser, h, Service.callAddUser, hs, Encoder.Encode, NewEncoder]

theorem getUserInfo_no_id (J : JSON F) (s : Server F Ctx σ) (w : ResponseRecorder)
    (req : Request Ctx) (m : World F Ctx σ) (h : req.Vars.lookup "id" = none) :
    s.getUserInfo J w req m = (w.WriteHeader StatusBadRequest, m) := by
  simp [Server.getUserInfo, h]

theorem getUserInfo_store_error (J : JSON F) (s : Server F Ctx σ) (w : ResponseRecorder)
    (req : Request Ctx) (m : World F Ctx σ) (id : String) (u : Option (User F)) (e : Error)
    (st : σ) (h : req.Vars.lookup "id" = some id)
    (hs : s.service.GetUser req.ctx id m.state = ((u, some e), st)) :
    s.getUserInfo J w req m =
      (w.WriteHeader StatusInternalServerError, ⟨st, m.calls ++ [Call.GetUser req.ctx id]⟩) := by
  simp [Server.getUserInfo, h, Service.callGetUser, hs]

theorem getUserInfo_ok (J : JSON F) (s : Server F Ctx σ) (w : ResponseRecorder)
    (req : Request Ctx) (m : World F Ctx σ) (id : String) (u : Option (User F)) (b : Body)
    (st : σ) (h : req.Vars.lookup "id" = some id)
    (hs : s.service.GetUser req.ctx id m.state = ((u, none), st))
    (hb : J.marshalUser u = .ok b) :
    s.getUserInfo J w req m =
      (w.Write (J.Indent (b ++ "\n") "" " "), ⟨st, m.calls ++ [Call.GetUser req.ctx id]⟩) := by
  simp [Server.getUserInfo, h, Service.callGetUser, hs, Encoder.Encode, NewEncoder,
    Encoder.SetIndent, hb]

theorem getUserInfo_encode_error (J : JSON F) (s : Server F Ctx σ) (w : ResponseRecorder)
    (req : Request Ctx) (m : World F Ctx σ) (id : String) (u : Option (User F)) (e : Error)
    (st : σ) (h : req.Vars.lookup "id" = some id)
    (hs : s.service.GetUser req.ctx id m.state = ((u, none), st))
    (hb : J.marshalUser u = .error e) :
    s.getUserInfo J w req m =
      (w.WriteHeader StatusInternalServerError, ⟨st, m.calls ++ [Call.GetUser req.ctx id]⟩) := by
  simp [Server.getUserInfo, h, Service.callGetUser, hs, Encoder.Encode, NewEncoder,
    Encoder.SetIndent, hb]

theorem removeUser_no_id (s : Server F Ctx σ) (w : ResponseRecorder)
    (req : Request Ctx) (m : World F Ctx σ) (h : req.Vars.lookup "id" = none) :
    s.removeUser w req m = (w.WriteHeader StatusBadRequest, m) := by
  simp [Server.removeUser, h]

theorem removeUser_store_error (s : Server F Ctx σ) (w : ResponseRecorder)
    (req : Request Ctx) (m : World F Ctx σ) (id : String) (e : Error) (st : σ)
    (h : req.Vars.lookup "id" = some id)
    (hs : s.service.DeleteUser req.ctx id m.state = (some e, st)) :
    s.removeUser w req m =
      (w.WriteHeader StatusInternalServerError,
        ⟨st, m.calls ++ [Call.DeleteUser req.ctx id]⟩) := by
  simp [Server.removeUser, h, Service.callDeleteUser, hs]

theorem removeUser_ok (s : Server F Ctx σ) (w : ResponseRecorder)
    (req : Request Ctx) (m : World F Ctx σ) (id : String) (st : σ)
    (h : req.Vars.lookup "id" = some id)
    (hs : s.service.DeleteUser req.ctx id m.state = (none, st)) :
    s.removeUser w req m = (w, ⟨st, m.calls ++ [Call.DeleteUser req.ctx id]⟩) := by
  simp [Server.removeUser, h, Service.callDeleteUser, hs]

theorem takeUserBonusPoints_bad_body (J : JSON F) (s : Server F Ctx σ) (w : ResponseRecorder)
    (req : Request Ctx) (m : World F Ctx σ) (e : Error) (h : J.decodePoints req.Body = .error e) :
    s.takeUserBonusPoints J w req m = (w.WriteHeader StatusBadRequest, m) := by
  simp [Server.takeUserBonusPoints, h]

theorem takeUserBonusPoints_no_id (J : JSON F) (s : Server F Ctx σ) (w : ResponseRecorder)
    (req : Request Ctx) (m : World F Ctx σ) (h : req.Vars.lookup "id" = none) :
    s.takeUserBonusPoints J w req m = (w.WriteHeader StatusBadRequest, m) := by
  unfold Server.takeUserBonusPoints
  cases J.decodePoints req.Body <;> simp [h]

theorem takeUserBonusPoints_store_error (J : JSON F) (s : Server F Ctx σ)
    (w : ResponseRecorder) (req : Request Ctx) (m : World F Ctx σ) (p : F) (id : String)
    (e : Error) (st : σ) (hp : J.decodePoints req.Body = .ok p)
    (h : req.Vars.lookup "id" = some id)
    (hs : s.service.TakeUserBalance req.ctx id p m.state = (some e, st)) :
    s.takeUserBonusPoints J w req m =
      (w.WriteHeader StatusInternalServerError,
        ⟨st, m.calls ++ [Call.TakeUserBalance req.ctx id p]⟩) := by
  simp [Server.takeUserBonusPoints, hp, h, Service.callTakeUserBalance, hs]

theorem takeUserBonusPoints_ok (J : JSON F) (s : Server F Ctx σ)
    (w : ResponseRecorder) (req : Request Ctx) (m : World F Ctx σ) (p : F) (id : String)
    (st : σ) (hp : J.decodePoints req.Body = .ok p)
    (h : req.Vars.lookup "id" = some id)
    (hs : s.service.TakeUserBalance req.ctx id p m.state = (none, st)) :
    s.takeUserBonusPoints J w req m =
      (w, ⟨st, m.calls ++ [Call.TakeUserBalance req.ctx id p]⟩) := by
  simp [Server.takeUserBonusPoints, hp, h, Service.callTakeUserBalance, hs]

theorem addUserBonusPoints_bad_body (J : JSON F) (s : Server F Ctx σ) (w : ResponseRecorder)
    (req : Request Ctx) (m : World F Ctx σ) (e : Error) (h : J.decodePoints req.Body = .error e) :
    s.addUserBonusPoints J w req m = (w.WriteHeader StatusBadRequest, m) := by
  simp [Server.addUserBonusPoints, h]

theorem addUserBonusPoints_no_id (J : JSON F) (s : Server F Ctx σ) (w : ResponseRecorder)
    (req : Request Ctx) (m : World F Ctx σ) (h : req.Vars.lookup "id" = none) :
    s.addUserBonusPoints J w req m = (w.WriteHeader StatusBadRequest, m) := by
  unfold Server.addUserBonusPoints
  cases J.decodePoints req.Body <;> simp [h]

theorem addUserBonusPoints_store_error (J : JSON F) (s : Server F Ctx σ)
    (w : ResponseRecorder) (req : Request Ctx) (m : World F Ctx σ) (p : F) (id : String)
    (e : Error) (st : σ) (hp : J.decodePoints req.Body = .ok p)
    (h : req.Vars.lookup "id" = some id)
    (hs : s.service.FundUserBalance req.ctx id p m.state = (some e, st)) :
    s.addUserBonusPoints J w req m =
      (w.WriteHeader StatusInternalServerError,
        ⟨st, m.calls ++ [Call.FundUserBalance req.ctx id p]⟩) := by
  simp [Server.addUserBonusPoints, hp, h, Service.callFundUserBalance, hs]

theorem addUserBonusPoints_ok (J : JSON F) (s : Server F Ctx σ)
    (w : ResponseRecorder) (req : Request Ctx) (m : World F Ctx σ) (p : F) (id : String)
    (st : σ) (hp : J.decodePoints req.Body = .ok p)
    (h : req.Vars.lookup "id" = some id)
    (hs : s.service.FundUserBalance req.ctx id p m.state = (none, st)) :
    s.addUserBonusPoints J w req m =
      (w, ⟨st, m.calls ++ [Call.FundUserBalance req.ctx id p]⟩) := by
  simp [Server.addUserBonusPoints, hp, h, Service.callFundUserBalance, hs]

end lemmas

/-! ## The outcomes of a handler

Each handler either answers 400 and leaves the service alone, or makes one call. -/

section outcomes

variable {F Ctx σ : Type}

theorem createNewUser_outcome (J : JSON F) (s : Server F Ctx σ) (w : ResponseRecorder)
    (req : Request Ctx) (m : World F Ctx σ) :
    ((∃ e, J.decodeUser req.Body = .error e) ∧
        s.createNewUser J w req m = (w.WriteHeader StatusBadRequest, m)) ∨
      ∃ user, J.decodeUser req.Body = .ok user ∧
        (s.createNewUser J w req m).2.calls = m.calls ++ [Call.AddUser req.ctx user.Name] ∧
        ((s.createNewUser J w req m).1 = w.WriteHeader StatusInternalServerError ∨
          ∃ b, (s.createNewUser J w req m).1 = w.Write b) := by
  cases hd : J.decodeUser req.Body with
  | error e => exact Or.inl ⟨⟨e, rfl⟩, createNewUser_bad_body J s w req m e hd⟩
  | ok user =>
    refine Or.inr ⟨user, rfl, ?_⟩
    rcases hres : s.service.AddUser req.ctx user.Name m.state with ⟨⟨id, _ | e⟩, st⟩
    · rw [createNewUser_ok J s w req m user id st hd hres]
      exact ⟨rfl, Or.inr ⟨_, rfl⟩⟩
    · rw [createNewUser_store_error J s w req m user id e st hd hres]
      exact ⟨rfl, Or.inl rfl⟩

theorem getUserInfo_outcome (J : JSON F) (s : Server F Ctx σ) (w : ResponseRecorder)
    (req : Request Ctx) (m : World F Ctx σ) :
    (req.Vars.lookup "id" = none ∧
        s.getUserInfo J w req m = (w.WriteHeader StatusBadRequest, m)) ∨
      ∃ id, req.Vars.lookup "id" = some id ∧
        (s.getUserInfo J w req m).2.calls = m.calls ++ [Call.GetUser req.ctx id] ∧
        ((s.getUserInfo J w req m).1 = w.WriteHeader StatusInternalServerError ∨
          ∃ b, (s.getUserInfo J w req m).1 = w.Write b) := by
  cases hid : req.Vars.lookup "id" with
  | none => exact Or.inl ⟨rfl, getUserInfo_no_id J s w req m hid⟩
  | some id =>
    refine Or.inr ⟨id, rfl, ?_⟩
    rcases hres : s.service.GetUser req.ctx id m.state with ⟨⟨u, _ | e⟩, st⟩
    · cases hb : J.marshalUser u with
      | error e =>
        rw [getUserInfo_encode_error J s w req m id u e st hid hres hb]
        exact ⟨rfl, Or.inl rfl⟩
      | ok b =>
        rw [getUserInfo_ok J s w req m id u b st hid hres hb]
        exact ⟨rfl, Or.inr ⟨_, rfl⟩⟩
    · rw [getUserInfo_store_error J s w req m id u e st hid hres]
      exact ⟨rfl, Or.inl rfl⟩

theorem removeUser_outcome (s : Server F Ctx σ) (w : ResponseRecorder)
    (req : Request Ctx) (m : World F Ctx σ) :
    (req.Vars.lookup "id" = none ∧
        s.removeUser w req m = (w.WriteHeader StatusBadRequest, m)) ∨
      ∃ id, req.Vars.lookup "id" = some id ∧
        (s.removeUser w req m).2.calls = m.calls ++ [Call.DeleteUser req.ctx id] ∧
        ((s.removeUser w req m).1 = w.WriteHeader StatusInternalServerError ∨
          (s.removeUser w req m).1 = w) := by
  cases hid : req.Vars.lookup "id" with
  | none => exact Or.inl ⟨rfl, removeUser_no_id s w req m hid⟩
  | some id =>
    refine Or.inr ⟨id, rfl, ?_⟩
    rcases hres : s.service.DeleteUser req.ctx id m.state with ⟨_ | e, st⟩
    · rw [removeUser_ok s w req m id st hid hres]
      exact ⟨rfl, Or.inr rfl⟩
    · rw [removeUser_store_error s w req m id e st hid hres]
      exact ⟨rfl, Or.inl rfl⟩

theorem takeUserBonusPoints_outcome (J : JSON F) (s : Server F Ctx σ) (w : ResponseRecorder)
    (req : Request Ctx) (m : World F Ctx σ) :
    (((∃ e, J.decodePoints req.Body = .error e) ∨ req.Vars.lookup "id" = none) ∧
        s.takeUserBonusPoints J w req m = (w.WriteHeader StatusBadRequest, m)) ∨
      ∃ p id, J.decodePoints req.Body = .ok p ∧ req.Vars.lookup "id" = some id ∧
        (s.takeUserBonusPoints J w req m).2.calls
          = m.calls ++ [Call.TakeUserBalance req.ctx id p] ∧
        ((s.takeUserBonusPoints J w req m).1 = w.WriteHeader StatusInternalServerError ∨
          (s.takeUserBonusPoints J w req m).1 = w) := by
  cases hp : J.decodePoints req.Body with
  | error e => exact Or.inl ⟨Or.inl ⟨e, rfl⟩, takeUserBonusPoints_bad_body J s w req m e hp⟩
  | ok p =>
    cases hid : req.Vars.lookup "id" with
    | none => exact Or.inl ⟨Or.inr rfl, takeUserBonusPoints_no_id J s w req m hid⟩
    | some id =>
      refine Or.inr ⟨p, id, rfl, rfl, ?_⟩
      rcases hres : s.service.TakeUserBalance req.ctx id p m.state with ⟨_ | e, st⟩
      · rw [takeUserBonusPoints_ok J s w req m p id st hp hid hres]
        exact ⟨rfl, Or.inr rfl⟩
      · rw [takeUserBonusPoints_store_error J s w req m p id e st hp hid hres]
        exact ⟨rfl, Or.inl rfl⟩

theorem addUserBonusPoints_outcome (J : JSON F) (s : Server F Ctx σ) (w : ResponseRecorder)
    (req : Request Ctx) (m : World F Ctx σ) :
    (((∃ e, J.decodePoints req.Body = .error e) ∨ req.Vars.lookup "id" = none) ∧
        s.addUserBonusPoints J w req m = (w.WriteHeader StatusBadRequest, m)) ∨
      ∃ p id, J.decodePoints req.Body = .ok p ∧ req.Vars.lookup "id" = some id ∧
        (s.addUserBonusPoints J w req m).2.calls
          = m.calls ++ [Call.FundUserBalance req.ctx id p] ∧
        ((s.addUserBonusPoints J w req m).1 = w.WriteHeader StatusInternalServerError ∨
          (s.addUserBonusPoints J w req m).1 = w) := by
  cases hp : J.decodePoints req.Body with
  | error e => exact Or.inl ⟨Or.inl ⟨e, rfl⟩, addUserBonusPoints_bad_body J s w req m e hp⟩
  | ok p =>
    cases hid : req.Vars.lookup "id" with
    | none => exact Or.inl ⟨Or.inr rfl, addUserBonusPoints_no_id J s w req m hid⟩
    | some id =>
      refine Or.inr ⟨p, id, rfl, rfl, ?_⟩
      rcases hres : s.service.FundUserBalance req.ctx id p m.state with ⟨_ | e, st⟩
      · rw [addUserBonusPoints_ok J s w req m p id st hp hid hres]
        exact ⟨rfl, Or.inr rfl⟩
      · rw [addUserBonusPoints_store_error J s w req m p id e st hp hid hres]
        exact ⟨rfl, Or.inl rfl⟩

/-- Whatever the handler, the calls it adds to the trace are at most one, and that one is
an operation on users. -/
theorem handle_calls (J : JSON F) (s : Server F Ctx σ) (h : HandlerName) (w : ResponseRecorder)
    (req : Request Ctx) (m : World F Ctx σ) :
    (s.handle J h w req m).2.calls = m.calls ∨
      ∃ c, (s.handle J h w req m).2.calls = m.calls ++ [c] ∧ c.isTournament = false := by
  cases h with
  | createNewUser =>
    rcases createNewUser_outcome J s w req m with ⟨_, h⟩ | ⟨user, _, hc, _⟩
    · exact Or.inl (by simp only [Server.handle]; rw [h])
    · exact Or.inr ⟨_, hc, rfl⟩
  | getUserInfo =>
    rcases getUserInfo_outcome J s w req m with ⟨_, h⟩ | ⟨id, _, hc, _⟩
    · exact Or.inl (by simp only [Server.handle]; rw [h])
    · exact Or.inr ⟨_, hc, rfl⟩
  | removeUser =>
    rcases removeUser_outcome s w req m with ⟨_, h⟩ | ⟨id, _, hc, _⟩
    · exact Or.inl (by simp only [Server.handle]; rw [h])
    · exact Or.inr ⟨_, hc, rfl⟩
  | takeUserBonusPoints =>
    rcases takeUserBonusPoints_outcome J s w req m with ⟨_, h⟩ | ⟨p, id, _, _, hc, _⟩
    · exact Or.inl (by simp only [Server.handle]; rw [h])
    · exact Or.inr ⟨_, hc, rfl⟩
  | addUserBonusPoints =>
    rcases addUserBonusPoints_outcome J s w req m with ⟨_, h⟩ | ⟨p, id, _, _, hc, _⟩
    · exact Or.inl (by simp only [Server.handle]; rw [h])
    · exact Or.inr ⟨_, hc, rfl⟩

end outcomes

/-! ## Paths and templates -/

theorem splitPath_no_slash {s : List Char} (h : '/' ∉ s) : splitPath s = [s] := by
  induction s with
  | nil => rfl
  | cons c cs ih =>
    have hc : c ≠ '/' := fun hc => h (by simp [hc])
    have hcs : '/' ∉ cs := fun hcs => h (by simp [hcs])
    simp [splitPath, hc, ih hcs]

theorem splitPath_append_slash {s : List Char} (rest : List Char) (h : '/' ∉ s) :
    splitPath (s ++ '/' :: rest) = s :: splitPath rest := by
  induction s with
  | nil => simp [splitPath]
  | cons c cs ih =>
    have hc : c ≠ '/' := fun hc => h (by simp [hc])
    have hcs : '/' ∉ cs := fun hcs => h (by simp [hcs])
    simp [splitPath, hc, ih hcs]

theorem splitPath_user_id (id : String) (h : '/' ∉ id.data) :
    splitPath ("/user/" ++ id).data = [[], "user".data, id.data] := by
  have e : ("/user/" ++ id).data = [] ++ '/' :: ("user".data ++ '/' :: id.data) := by
    simp [String.data_append]
  rw [e, splitPath_append_slash _ (by simp), splitPath_append_slash _ (by decide),
    splitPath_no_slash h]

theorem splitPath_user_id_op (id op : String) (h : '/' ∉ id.data) (hop : '/' ∉ op.data) :
    splitPath ("/user/" ++ id ++ "/" ++ op).data = [[], "user".data, id.data, op.data] := by
  have e : ("/user/" ++ id ++ "/" ++ op).data
      = [] ++ '/' :: ("user".data ++ '/' :: (id.data ++ '/' :: op.data)) := by
    simp [String.data_append]
  rw [e, splitPath_append_slash _ (by simp), splitPath_append_slash _ (by decide),
    splitPath_append_slash _ h, splitPath_no_slash hop]

theorem parseTemplate_user :
    parseTemplate "/user" = [Seg.lit [], Seg.lit "user".data] := by decide

theorem parseTemplate_user_id :
    parseTemplate "/user/{id}" = [Seg.lit [], Seg.lit "user".data, Seg.var "id".data] := by
  decide

theorem parseTemplate_take :
    parseTemplate "/user/{id}/take"
      = [Seg.lit [], Seg.lit "user".data, Seg.var "id".data, Seg.lit "take".data] := by
  decide

theorem parseTemplate_fund :
    parseTemplate "/user/{id}/fund"
      = [Seg.lit [], Seg.lit "user".data, Seg.var "id".data, Seg.lit "fund".data] := by
  decide

theorem Route_Match_eq (tpl : String) (h : HandlerName) (method method1 path : String)
    (segs : List Seg) (pieces : List (List Char)) (ht : parseTemplate tpl = segs)
    (hp : splitPath path.data = pieces) :
    Route.Match ⟨tpl, h, method⟩ method1 path
      = if method = method1 then matchSegs segs pieces else none := by
  subst ht hp; rfl

/-- The router of `NewServer` on a path whose pieces are known. -/
theorem Router_Match_pieces {F Ctx σ : Type} (db : Service F Ctx σ) (method path : String)
    (pieces : List (List Char)) (hp : splitPath path.data = pieces) :
    Router.Match (NewServer db).Handler method path =
      match (if "POST" = method then
          matchSegs [Seg.lit [], Seg.lit "user".data] pieces else none) with
      | some vars => some (.createNewUser, vars)
      | none =>
      match (if "GET" = method then
          matchSegs [Seg.lit [], Seg.lit "user".data, Seg.var "id".data] pieces else none) with
      | some vars => some (.getUserInfo, vars)
      | none =>
      match (if "DELETE" = method then
          matchSegs [Seg.lit [], Seg.lit "user".data, Seg.var "id".data] pieces else none) with
      | some vars => some (.removeUser, vars)
      | none =>
      match (if "POST" = method then
          matchSegs [Seg.lit [], Seg.lit "user".data, Seg.var "id".data, Seg.lit "take".data]
            pieces else none) with
      | some vars => some (.takeUserBonusPoints, vars)
      | none =>
      match (if "POST" = method then
          matchSegs [Seg.lit [], Seg.lit "user".data, Seg.var "id".data, Seg.lit "fund".data]
            pieces else none) with
      | some vars => some (.addUserBonusPoints, vars)
      | none => none := by
  simp only [NewServer, Router.Match, Route_Match_eq _ _ _ _ _ _ _ parseTemplate_user hp,
    Route_Match_eq _ _ _ _ _ _ _ parseTemplate_user_id hp,
    Route_Match_eq _ _ _ _ _ _ _ parseTemplate_take hp,
    Route_Match_eq _ _ _ _ _ _ _ parseTemplate_fund hp]

theorem String_data_ne_nil {id : String} (h : id ≠ "") : id.data ≠ [] :=
  fun h0 => h (by cases id; simp_all)

theorem String_data_ne {id : String} (cs : List Char) (h : id ≠ String.mk cs) : id.data ≠ cs :=
  fun h0 => h (by cases id; simp_all)

theorem Match_create {F Ctx σ : Type} (db : Service F Ctx σ) :
    Router.Match (NewServer db).Handler "POST" "/user" = some (.createNewUser, []) := by
  rw [Router_Match_pieces db _ _ [[], "user".data] (by decide)]
  simp [matchSegs]

theorem Match_get {F Ctx σ : Type} (db : Service F Ctx σ) (id : String)
    (h : '/' ∉ id.data) (hne : id ≠ "") :
    Router.Match (NewServer db).Handler "GET" ("/user/" ++ id)
      = some (.getUserInfo, [("id", id)]) := by
  rw [Router_Match_pieces db _ _ _ (splitPath_user_id id h)]
  simp [matchSegs, String_data_ne_nil hne]

theorem Match_delete {F Ctx σ : Type} (db : Service F Ctx σ) (id : String)
    (h : '/' ∉ id.data) (hne : id ≠ "") :
    Router.Match (NewServer db).Handler "DELETE" ("/user/" ++ id)
      = some (.removeUser, [("id", id)]) := by
  rw [Router_Match_pieces db _ _ _ (splitPath_user_id id h)]
  simp [matchSegs, String_data_ne_nil hne]

theorem Match_take {F Ctx σ : Type} (db : Service F Ctx σ) (id : String)
    (h : '/' ∉ id.data) (hne : id ≠ "") :
    Router.Match (NewServer db).Handler "POST" ("/user/" ++ id ++ "/" ++ "take")
      = some (.takeUserBonusPoints, [("id", id)]) := by
  rw [Router_Match_pieces db _ _ _ (splitPath_user_id_op id "take" h (by decide))]
  simp [matchSegs, String_data_ne_nil hne]

theorem Match_fund {F Ctx σ : Type} (db : Service F Ctx σ) (id : String)
    (h : '/' ∉ id.data) (hne : id ≠ "") :
    Router.Match (NewServer db).Handler "POST" ("/user/" ++ id ++ "/" ++ "fund")
      = some (.addUserBonusPoints, [("id", id)]) := by
  rw [Router_Match_pieces db _ _ _ (splitPath_user_id_op id "fund" h (by decide))]
  simp [matchSegs, String_data_ne_nil hne]

theorem isCleanPath_user_id (id : String) (h : '/' ∉ id.data) (h1 : id ≠ ".")
    (h2 : id ≠ "..") : isCleanPath ("/user/" ++ id) = true := by
  have h1d := String_data_ne ['.'] h1
  have h2d := String_data_ne ['.', '.'] h2
  simp only [isCleanPath, splitPath_user_id id h]
  simp [h1d, h2d]

theorem isCleanPath_user_id_op (id op : String) (h : '/' ∉ id.data) (hne : id ≠ "")
    (h1 : id ≠ ".") (h2 : id ≠ "..") (hop : '/' ∉ op.data) (hop1 : op ≠ ".")
    (hop2 : op ≠ "..") : isCleanPath ("/user/" ++ id ++ "/" ++ op) = true := by
  have hne1 := String_data_ne_nil hne
  have h1d := String_data_ne ['.'] h1
  have h2d := String_data_ne ['.', '.'] h2
  have h3d := String_data_ne ['.'] hop1
  have h4d := String_data_ne ['.', '.'] hop2
  simp only [isCleanPath, splitPath_user_id_op id op h hop]
  simp [h1d, h2d, h3d, h4d, hne1]

theorem path_take (id : String) : "/user/" ++ id ++ "/take" = "/user/" ++ id ++ "/" ++ "take" := by
  rw [String.append_assoc _ "/" "take"]; rfl

theorem path_fund (id : String) : "/user/" ++ id ++ "/fund" = "/user/" ++ id ++ "/" ++ "fund" := by
  rw [String.append_assoc _ "/" "fund"]; rfl

/-! ## The ledger -/

theorem take_nonNegative (s : Store) (hinv : s.nonNegative) (id : String) (t : ℚ) :
    (take s id t).2.nonNegative := by
  unfold take
  by_cases ht : t < 0
  · simpa [ht] using hinv
  · simp only [ht, if_false, Store.updateIfPresent]
    cases hu : s id with
    | none => simpa using hinv
    | some u =>
      by_cases hb : u.Balance ≥ t
      · simp only [hb, if_true]
        intro id1 u1 h1
        by_cases hid : id1 = id
        · subst hid
          simp only [Function.update_same, Option.some.injEq] at h1
          subst h1
          simpa using hb
        · rw [Function.update_noteq hid] at h1
          exact hinv id1 u1 h1
      · simpa [hb] using hinv

theorem sampleStore_nonNegative : sampleStore.nonNegative := by
  intro id u h
  unfold sampleStore at h
  split at h
  · cases h; norm_num
  · cases h

/-! ## createNewUser -/

section claims

variable {F Ctx σ : Type}

/-- C1. `createNewUser`, success path: when the body decodes to a user and `AddUser`, given
the name of that user, returns `(id, nil)`, the handler makes exactly one call of the
service, `AddUser` with that name, answers with status 200, and the body it writes is the
JSON encoding of `{"id": id}` followed by a newline, which decodes to `id` for a decoder
that reads back what the encoder wrote for `id`. -/
theorem createNewUser_success (J : JSON F) (db : Service F Ctx σ) (req : Request Ctx)
    (m : World F Ctx σ) (user : User F) (id : String) (st : σ)
    (hdec : J.decodeUser req.Body = .ok user)
    (hsvc : db.AddUser req.ctx user.Name m.state = ((id, none), st))
    (hread : J.unmarshalID (J.marshalID id ++ "\n") = .ok id) :
    ((NewServer db).createNewUser J NewRecorder req m).2.calls
        = m.calls ++ [Call.AddUser req.ctx user.Name] ∧
      ((NewServer db).createNewUser J NewRecorder req m).2.state = st ∧
      ((NewServer db).createNewUser J NewRecorder req m).1.StatusCode = 200 ∧
      ((NewServer db).createNewUser J NewRecorder req m).1.Body = J.marshalID id ++ "\n" ∧
      J.unmarshalID ((NewServer db).createNewUser J NewRecorder req m).1.Body = .ok id := by
  have hs : (NewServer db).service.AddUser req.ctx user.Name m.state = ((id, none), st) := hsvc
  rw [createNewUser_ok J (NewServer db) NewRecorder req m user id st hdec hs, NewRecorder_Write]
  exact ⟨rfl, rfl, rfl, rfl, hread⟩

/-- The run of `TestCreateNewUser_Success`: name `Gennadiy`, the service returns `code_str`. -/
theorem createNewUser_success_witness :
    ((NewServer (mockService ("code_str", none) (none, none) none)).createNewUser sampleJSON
        NewRecorder (createRequest "Gennadiy") (World.fresh ())).2.calls
        = [] ++ [Call.AddUser () "Gennadiy"] ∧
      ((NewServer (mockService ("code_str", none) (none, none) none)).createNewUser sampleJSON
        NewRecorder (createRequest "Gennadiy") (World.fresh ())).1
        = ⟨200, true, "\x7b\"id\":\"code_str\"\x7d\n"⟩ :=
  have h := createNewUser_success sampleJSON (mockService ("code_str", none) (none, none) none)
    (createRequest "Gennadiy") (World.fresh ()) ⟨"", "Gennadiy", Num.int 0⟩ "code_str" ()
    rfl rfl rfl
  ⟨h.1, rfl⟩

/-- C2. `createNewUser`, bad request: when the body cannot be decoded, the handler answers
with status 400, writes no body, and calls no operation of the service: the service and
its trace of calls are as before. -/
theorem createNewUser_bad_request (J : JSON F) (db : Service F Ctx σ) (req : Request Ctx)
    (m : World F Ctx σ) (e : Error) (hdec : J.decodeUser req.Body = .error e) :
    ((NewServer db).createNewUser J NewRecorder req m).1.StatusCode = 400 ∧
      ((NewServer db).createNewUser J NewRecorder req m).1.Body = "" ∧
      ((NewServer db).createNewUser J NewRecorder req m).2.calls = m.calls ∧
      ((NewServer db).createNewUser J NewRecorder req m).2.state = m.state := by
  rw [createNewUser_bad_body J (NewServer db) NewRecorder req m e hdec]
  exact ⟨rfl, rfl, rfl, rfl⟩

/-- The run of `TestCreateNewUser_Bad_Req`: an empty body. -/
theorem createNewUser_bad_request_witness :
    sampleJSON.decodeUser emptyRequest.Body = .error "cannot decode" ∧
      ((NewServer (mockService ("code_str", none) (none, none) none)).createNewUser sampleJSON
        NewRecorder emptyRequest (World.fresh ())).1.StatusCode = 400 ∧
      ((NewServer (mockService ("code_str", none) (none, none) none)).createNewUser sampleJSON
        NewRecorder emptyRequest (World.fresh ())).2.calls = [] :=
  have h := createNewUser_bad_request sampleJSON
    (mockService ("code_str", none) (none, none) none) emptyRequest (World.fresh ())
    "cannot decode" rfl
  ⟨rfl, h.1, h.2.2.1⟩

/-- C3. `createNewUser`, store failure: when the body decodes and `AddUser` returns an error,
whichever error it is and whatever id comes with it, the handler answers with status 500
and writes no body; `AddUser` was its one call. -/
theorem createNewUser_store_failure (J : JSON F) (db : Service F Ctx σ) (req : Request Ctx)
    (m : World F Ctx σ) (user : User F) (id : String) (e : Error) (st : σ)
    (hdec : J.decodeUser req.Body = .ok user)
    (hsvc : db.AddUser req.ctx user.Name m.state = ((id, some e), st)) :
    ((NewServer db).createNewUser J NewRecorder req m).1.StatusCode = 500 ∧
      ((NewServer db).createNewUser J NewRecorder req m).1.Body = "" ∧
      ((NewServer db).createNewUser J NewRecorder req m).2.calls
        = m.calls ++ [Call.AddUser req.ctx user.Name] := by
  have hs : (NewServer db).service.AddUser req.ctx user.Name m.state = ((id, some e), st) := hsvc
  rw [createNewUser_store_error J (NewServer db) NewRecorder req m user id e st hdec hs]
  exact ⟨rfl, rfl, rfl⟩

/-- The run of `TestCreateNewUser_DB_Fail`: name `Vasiliy`, the store fails. -/
theorem createNewUser_store_failure_witness :
    ((NewServer (mockService ("", some "insert doc to collection") (none, none)
        none)).createNewUser sampleJSON NewRecorder (createRequest "Vasiliy")
        (World.fresh ())).1.StatusCode = 500 ∧
      ((NewServer (mockService ("", some "insert doc to collection") (none, none)
        none)).createNewUser sampleJSON NewRecorder (createRequest "Vasiliy")
        (World.fresh ())).2.calls = [] ++ [Call.AddUser () "Vasiliy"] :=
  have h := createNewUser_store_failure sampleJSON
    (mockService ("", some "insert doc to collection") (none, none) none)
    (createRequest "Vasiliy") (World.fresh ()) ⟨"", "Vasiliy", Num.int 0⟩ ""
    "insert doc to collection" () rfl rfl
  ⟨h.1, h.2.2⟩

/-! ## takeUserBonusPoints -/

/-- C4. `takeUserBonusPoints`, status mapping, for every request. When the body cannot be decoded or
the path variable `id` is absent, the status is 400 and the service is not called. Otherwise
`TakeUserBalance(ctx, id, points)` is the one call made, with the path id and the decoded points;
the status is 500 when it returns an error, and 200 with an empty body when it returns nil. -/
theorem takeUserBonusPoints_status_mapping (J : JSON F) (db : Service F Ctx σ) (req : Request Ctx)
    (m : World F Ctx σ) :
    let r := (NewServer db).takeUserBonusPoints J NewRecorder req m
    (((∃ e, J.decodePoints req.Body = .error e) ∨ req.Vars.lookup "id" = none) →
        r.1.StatusCode = 400 ∧ r.2.calls = m.calls ∧ r.2.state = m.state) ∧
      (∀ p id, J.decodePoints req.Body = .ok p → req.Vars.lookup "id" = some id →
        r.2.calls = m.calls ++ [Call.TakeUserBalance req.ctx id p] ∧
        r.2.state = (db.TakeUserBalance req.ctx id p m.state).2 ∧
        (∀ e, (db.TakeUserBalance req.ctx id p m.state).1 = some e → r.1.StatusCode = 500) ∧
        ((db.TakeUserBalance req.ctx id p m.state).1 = none → r.1.StatusCode = 200 ∧ r.1.Body = "")) := by
  intro r
  have hr : r = (NewServer db).takeUserBonusPoints J NewRecorder req m := rfl
  clear_value r
  refine ⟨?_, ?_⟩
  · rintro (⟨e, he⟩ | hid)
    · rw [hr, takeUserBonusPoints_bad_body J _ _ req m e he]
      exact ⟨rfl, rfl, rfl⟩
    · rw [hr, takeUserBonusPoints_no_id J _ _ req m hid]
      exact ⟨rfl, rfl, rfl⟩
  · intro p id hp hid
    rcases hres : db.TakeUserBalance req.ctx id p m.state with ⟨_ | e, st⟩
    · have hs : (NewServer db).service.TakeUserBalance req.ctx id p m.state = (none, st) := hres
      rw [hr, takeUserBonusPoints_ok J _ _ req m p id st hp hid hs]
      exact ⟨rfl, rfl, fun e he => (by cases he), fun _ => ⟨rfl, rfl⟩⟩
    · have hs : (NewServer db).service.TakeUserBalance req.ctx id p m.state = (some e, st) := hres
      rw [hr, takeUserBonusPoints_store_error J _ _ req m p id e st hp hid hs]
      exact ⟨rfl, rfl, fun _ _ => rfl, fun h => by cases h⟩

/-- A request to take 12 points on user `7`, on a service that accepts it: one call,
status 200, nothing written. -/
theorem takeUserBonusPoints_status_mapping_witness :
    ((NewServer (mockService ("", none) (none, none) none)).takeUserBonusPoints sampleJSON
        NewRecorder (userRequest "POST" "/user/7/take" "\x7b\"points\":12\x7d" "7")
        (World.fresh ())).2.calls = [] ++ [Call.TakeUserBalance () "7" (Num.int 12)] ∧
      ((NewServer (mockService ("", none) (none, none) none)).takeUserBonusPoints sampleJSON
        NewRecorder (userRequest "POST" "/user/7/take" "\x7b\"points\":12\x7d" "7")
        (World.fresh ())).1 = ⟨200, false, ""⟩ :=
  have h := (takeUserBonusPoints_status_mapping sampleJSON (mockService ("", none) (none, none) none)
    (userRequest "POST" "/user/7/take" "\x7b\"points\":12\x7d" "7") (World.fresh ())).2
    (Num.int 12) "7" rfl rfl
  ⟨h.1, rfl⟩

/-! ## addUserBonusPoints -/

/-- C5. `addUserBonusPoints`, status mapping, for every request. When the body cannot be decoded or
the path variable `id` is absent, the status is 400 and the service is not called. Otherwise
`FundUserBalance(ctx, id, points)` is the one call made, with the path id and the decoded points;
the status is 500 when it returns an error, and 200 with an empty body when it returns nil. -/
theorem addUserBonusPoints_status_mapping (J : JSON F) (db : Service F Ctx σ) (req : Request Ctx)
    (m : World F Ctx σ) :
    let r := (NewServer db).addUserBonusPoints J NewRecorder req m
    (((∃ e, J.decodePoints req.Body = .error e) ∨ req.Vars.lookup "id" = none) →
        r.1.StatusCode = 400 ∧ r.2.calls = m.calls ∧ r.2.state = m.state) ∧
      (∀ p id, J.decodePoints req.Body = .ok p → req.Vars.lookup "id" = some id →
        r.2.calls = m.calls ++ [Call.FundUserBalance req.ctx id p] ∧
        r.2.state = (db.FundUserBalance req.ctx id p m.state).2 ∧
        (∀ e, (db.FundUserBalance req.ctx id p m.state).1 = some e → r.1.StatusCode = 500) ∧
        ((db.FundUserBalance req.ctx id p m.state).1 = none → r.1.StatusCode = 200 ∧ r.1.Body = "")) := by
  intro r
  have hr : r = (NewServer db).addUserBonusPoints J NewRecorder req m := rfl
  clear_value r
  refine ⟨?_, ?_⟩
  · rintro (⟨e, he⟩ | hid)
    · rw [hr, addUserBonusPoints_bad_body J _ _ req m e he]
      exact ⟨rfl, rfl, rfl⟩
    · rw [hr, addUserBonusPoints_no_id J _ _ req m hid]
      exact ⟨rfl, rfl, rfl⟩
  · intro p id hp hid
    rcases hres : db.FundUserBalance req.ctx id p m.state with ⟨_ | e, st⟩
    · have hs : (NewServer db).service.FundUserBalance req.ctx id p m.state = (none, st) := hres
      rw [hr, addUserBonusPoints_ok J _ _ req m p id st hp hid hs]
      exact ⟨rfl, rfl, fun e he => (by cases he), fun _ => ⟨rfl, rfl⟩⟩
    · have hs : (NewServer db).service.FundUserBalance req.ctx id p m.state = (some e, st) := hres
      rw [hr, addUserBonusPoints_store_error J _ _ req m p id e st hp hid hs]
      exact ⟨rfl, rfl, fun _ _ => rfl, fun h => by cases h⟩

/-- A request to fund 12 points on user `7`, on a service that accepts it: one call,
status 200, nothing written. -/
theorem addUserBonusPoints_status_mapping_witness :
    ((NewServer (mockService ("", none) (none, none) none)).addUserBonusPoints sampleJSON
        NewRecorder (userRequest "POST" "/user/7/fund" "\x7b\"points\":12\x7d" "7")
        (World.fresh ())).2.calls = [] ++ [Call.FundUserBalance () "7" (Num.int 12)] ∧
      ((NewServer (mockService ("", none) (none, none) none)).addUserBonusPoints sampleJSON
        NewRecorder (userRequest "POST" "/user/7/fund" "\x7b\"points\":12\x7d" "7")
        (World.fresh ())).1 = ⟨200, false, ""⟩ :=
  have h := (addUserBonusPoints_status_mapping sampleJSON (mockService ("", none) (none, none) none)
    (userRequest "POST" "/user/7/fund" "\x7b\"points\":12\x7d" "7") (World.fresh ())).2
    (Num.int 12) "7" rfl rfl
  ⟨h.1, rfl⟩

/-! ## removeUser -/

/-- C7. `removeUser`, for every request. When the path variable `id` is absent the status is
400 and `DeleteUser` is not called. Otherwise `DeleteUser(ctx, id)` is the one call made; the
status is 500 when it returns an error, and 200 with an empty body when it returns nil. -/
theorem removeUser_status_mapping (db : Service F Ctx σ) (req : Request Ctx)
    (m : World F Ctx σ) :
    let r := (NewServer db).removeUser NewRecorder req m
    (req.Vars.lookup "id" = none →
        r.1.StatusCode = 400 ∧ r.2.calls = m.calls ∧ r.2.state = m.state) ∧
      (∀ id, req.Vars.lookup "id" = some id →
        r.2.calls = m.calls ++ [Call.DeleteUser req.ctx id] ∧
        r.2.state = (db.DeleteUser req.ctx id m.state).2 ∧
        (∀ e, (db.DeleteUser req.ctx id m.state).1 = some e → r.1.StatusCode = 500) ∧
        ((db.DeleteUser req.ctx id m.state).1 = none →
          r.1.StatusCode = 200 ∧ r.1.Body = "")) := by
  intro r
  have hr : r = (NewServer db).removeUser NewRecorder req m := rfl
  clear_value r
  refine ⟨?_, ?_⟩
  · intro hid
    rw [hr, removeUser_no_id _ _ req m hid]
    exact ⟨rfl, rfl, rfl⟩
  · intro id hid
    rcases hres : db.DeleteUser req.ctx id m.state with ⟨_ | e, st⟩
    · have hs : (NewServer db).service.DeleteUser req.ctx id m.state = (none, st) := hres
      rw [hr, removeUser_ok _ _ req m id st hid hs]
      exact ⟨rfl, rfl, fun e he => (by cases he), fun _ => ⟨rfl, rfl⟩⟩
    · have hs : (NewServer db).service.DeleteUser req.ctx id m.state = (some e, st) := hres
      rw [hr, removeUser_store_error _ _ req m id e st hid hs]
      exact ⟨rfl, rfl, fun _ _ => rfl, fun h => by cases h⟩

/-- A request to delete user `7` on a store that fails: one call, status 500. -/
theorem removeUser_status_mapping_witness :
    ((NewServer (mockService ("", none) (none, none) (some "no such user"))).removeUser
        NewRecorder (userRequest "DELETE" "/user/7" "" "7")
        (World.fresh ())).2.calls = [] ++ [Call.DeleteUser () "7"] ∧
      ((NewServer (mockService ("", none) (none, none) (some "no such user"))).removeUser
        NewRecorder (userRequest "DELETE" "/user/7" "" "7")
        (World.fresh ())).1.StatusCode = 500 :=
  have h := (removeUser_status_mapping (mockService ("", none) (none, none)
    (some "no such user")) (userRequest "DELETE" "/user/7" "" "7") (World.fresh ())).2
    "7" rfl
  ⟨h.1, h.2.2.1 "no such user" rfl⟩

/-! ## getUserInfo -/

/-- C6, as the claim states it, fails: `GetUser` returns a user and a nil error, the user
has a balance that `encoding/json` does not encode, and the handler answers with status
500 and no body. -/
theorem getUserInfo_unencodable_user :
    (mockService ("", none) (some ⟨"7", "Gennadiy", Num.inf⟩, none) none).GetUser () "7" ()
        = ((some ⟨"7", "Gennadiy", Num.inf⟩, none), ()) ∧
      ((NewServer (mockService ("", none) (some ⟨"7", "Gennadiy", Num.inf⟩, none)
        none)).getUserInfo sampleJSON NewRecorder (userRequest "GET" "/user/7" "" "7")
        (World.fresh ())).1.StatusCode = 500 ∧
      ((NewServer (mockService ("", none) (some ⟨"7", "Gennadiy", Num.inf⟩, none)
        none)).getUserInfo sampleJSON NewRecorder (userRequest "GET" "/user/7" "" "7")
        (World.fresh ())).1.StatusCode ≠ 200 ∧
      ((NewServer (mockService ("", none) (some ⟨"7", "Gennadiy", Num.inf⟩, none)
        none)).getUserInfo sampleJSON NewRecorder (userRequest "GET" "/user/7" "" "7")
        (World.fresh ())).1.Body = "" := by
  refine ⟨rfl, ?_⟩
  rw [getUserInfo_encode_error sampleJSON _ NewRecorder (userRequest "GET" "/user/7" "" "7")
    (World.fresh ()) "7" (some ⟨"7", "Gennadiy", Num.inf⟩) "json: unsupported value: +Inf" ()
    rfl rfl rfl]
  exact ⟨rfl, by decide, rfl⟩

/-- C6, amended. `getUserInfo`, for every request. When the path variable `id` is absent the
status is 400 and `GetUser` is not called. Otherwise `GetUser(ctx, id)` is the one call made.
When it returns an error the status is 500 and there is no body. When it returns
`(user, nil)` and the user has a JSON encoding, the status is 200 and the body is that
encoding, followed by a newline and indented by one space. When it returns `(user, nil)`
and the encoding fails, the status is 500 and there is no body. -/
theorem getUserInfo_response (J : JSON F) (db : Service F Ctx σ) (req : Request Ctx)
    (m : World F Ctx σ) :
    let r := (NewServer db).getUserInfo J NewRecorder req m
    (req.Vars.lookup "id" = none →
        r.1.StatusCode = 400 ∧ r.2.calls = m.calls ∧ r.2.state = m.state) ∧
      (∀ id, req.Vars.lookup "id" = some id →
        r.2.calls = m.calls ++ [Call.GetUser req.ctx id] ∧
        r.2.state = (db.GetUser req.ctx id m.state).2 ∧
        (∀ e, (db.GetUser req.ctx id m.state).1.2 = some e →
          r.1.StatusCode = 500 ∧ r.1.Body = "") ∧
        (∀ u b, (db.GetUser req.ctx id m.state).1 = (u, none) → J.marshalUser u = .ok b →
          r.1.StatusCode = 200 ∧ r.1.Body = J.Indent (b ++ "\n") "" " ") ∧
        (∀ u e, (db.GetUser req.ctx id m.state).1 = (u, none) → J.marshalUser u = .error e →
          r.1.StatusCode = 500 ∧ r.1.Body = "")) := by
  intro r
  have hr : r = (NewServer db).getUserInfo J NewRecorder req m := rfl
  clear_value r
  refine ⟨?_, ?_⟩
  · intro hid
    rw [hr, getUserInfo_no_id J _ _ req m hid]
    exact ⟨rfl, rfl, rfl⟩
  · intro id hid
    rcases hres : db.GetUser req.ctx id m.state with ⟨⟨u, _ | e⟩, st⟩
    · have hs : (NewServer db).service.GetUser req.ctx id m.state = ((u, none), st) := hres
      cases hb : J.marshalUser u with
      | error e =>
        rw [hr, getUserInfo_encode_error J _ _ req m id u e st hid hs hb]
        refine ⟨rfl, rfl, fun e he => (by cases he), ?_, fun _ _ _ _ => ⟨rfl, rfl⟩⟩
        intro u1 b1 hu hb1
        cases hu
        rw [hb] at hb1
        cases hb1
      | ok b =>
        rw [hr, getUserInfo_ok J _ _ req m id u b st hid hs hb, NewRecorder_Write]
        refine ⟨rfl, rfl, fun e he => (by cases he), ?_, ?_⟩
        · intro u1 b1 hu hb1
          cases hu
          rw [hb] at hb1
          cases hb1
          exact ⟨rfl, rfl⟩
        · intro u1 e1 hu hb1
          cases hu
          rw [hb] at hb1
          cases hb1
    · have hs : (NewServer db).service.GetUser req.ctx id m.state = ((u, some e), st) := hres
      rw [hr, getUserInfo_store_error J _ _ req m id u e st hid hs]
      refine ⟨rfl, rfl, fun _ _ => ⟨rfl, rfl⟩, ?_, ?_⟩
      · intro u1 b1 hu
        cases hu
      · intro u1 e1 hu
        cases hu

/-- A request for user `7`, whose balance is 100: one call, status 200, the user as JSON. -/
theorem getUserInfo_response_witness :
    ((NewServer (mockService ("", none) (some ⟨"7", "Gennadiy", Num.int 100⟩, none)
        none)).getUserInfo sampleJSON NewRecorder (userRequest "GET" "/user/7" "" "7")
        (World.fresh ())).2.calls = [] ++ [Call.GetUser () "7"] ∧
      ((NewServer (mockService ("", none) (some ⟨"7", "Gennadiy", Num.int 100⟩, none)
        none)).getUserInfo sampleJSON NewRecorder (userRequest "GET" "/user/7" "" "7")
        (World.fresh ())).1.StatusCode = 200 ∧
      ((NewServer (mockService ("", none) (some ⟨"7", "Gennadiy", Num.int 100⟩, none)
        none)).getUserInfo sampleJSON NewRecorder (userRequest "GET" "/user/7" "" "7")
        (World.fresh ())).1.Body
        = "\x7b\"id\":\"7\",\"name\":\"Gennadiy\",\"balance\":100\x7d\n" :=
  have h := (getUserInfo_response sampleJSON
    (mockService ("", none) (some ⟨"7", "Gennadiy", Num.int 100⟩, none) none)
    (userRequest "GET" "/user/7" "" "7") (World.fresh ())).2 "7" rfl
  ⟨h.1, h.2.2.2.1 (some ⟨"7", "Gennadiy", Num.int 100⟩)
    "\x7b\"id\":\"7\",\"name\":\"Gennadiy\",\"balance\":100\x7d" rfl rfl⟩

/-! ## NewServer -/

/-- C8. The routing table of `NewServer`. The router holds exactly five routes. It
dispatches `POST /user` to `createNewUser`, and for every id (not empty, without a slash,
and not `.` or `..`, which the router redirects) `GET /user/{id}` to `getUserInfo`,
`DELETE /user/{id}` to `removeUser`, `POST /user/{id}/take` to `takeUserBonusPoints` and
`POST /user/{id}/fund` to `addUserBonusPoints`, each with `id` bound. The only call
`takeUserBonusPoints` can make is `TakeUserBalance` and the only call `addUserBonusPoints`
can make is `FundUserBalance`. Whatever the request, the handler the router runs adds at
most one call, and never one of a tournament operation. -/
theorem NewServer_routing (J : JSON F) (db : Service F Ctx σ) :
    (NewServer db).Handler.length = 5 ∧
      (∀ (w : ResponseRecorder) (req : Request Ctx) (m : World F Ctx σ),
        req.Method = "POST" → req.Path = "/user" →
        (NewServer db).ServeHTTP J w req m
          = some ((NewServer db).createNewUser J w { req with Vars := [] } m)) ∧
      (∀ (id : String) (w : ResponseRecorder) (req : Request Ctx) (m : World F Ctx σ),
        id ≠ "" → '/' ∉ id.data → id ≠ "." → id ≠ ".." →
        (req.Method = "GET" → req.Path = "/user/" ++ id →
          (NewServer db).ServeHTTP J w req m
            = some ((NewServer db).getUserInfo J w { req with Vars := [("id", id)] } m)) ∧
        (req.Method = "DELETE" → req.Path = "/user/" ++ id →
          (NewServer db).ServeHTTP J w req m
            = some ((NewServer db).removeUser w { req with Vars := [("id", id)] } m)) ∧
        (req.Method = "POST" → req.Path = "/user/" ++ id ++ "/take" →
          (NewServer db).ServeHTTP J w req m
            = some ((NewServer db).takeUserBonusPoints J w
                { req with Vars := [("id", id)] } m)) ∧
        (req.Method = "POST" → req.Path = "/user/" ++ id ++ "/fund" →
          (NewServer db).ServeHTTP J w req m
            = some ((NewServer db).addUserBonusPoints J w
                { req with Vars := [("id", id)] } m))) ∧
      (∀ (w : ResponseRecorder) (req : Request Ctx) (m : World F Ctx σ),
        ((NewServer db).takeUserBonusPoints J w req m).2.calls = m.calls ∨
          ∃ p id, ((NewServer db).takeUserBonusPoints J w req m).2.calls
            = m.calls ++ [Call.TakeUserBalance req.ctx id p]) ∧
      (∀ (w : ResponseRecorder) (req : Request Ctx) (m : World F Ctx σ),
        ((NewServer db).addUserBonusPoints J w req m).2.calls = m.calls ∨
          ∃ p id, ((NewServer db).addUserBonusPoints J w req m).2.calls
            = m.calls ++ [Call.FundUserBalance req.ctx id p]) ∧
      (∀ (w : ResponseRecorder) (req : Request Ctx) (m : World F Ctx σ)
          (r : ResponseRecorder × World F Ctx σ),
        (NewServer db).ServeHTTP J w req m = some r →
        r.2.calls = m.calls ∨ ∃ c, r.2.calls = m.calls ++ [c] ∧ c.isTournament = false) := by
  refine ⟨rfl, ?_, ?_, ?_, ?_, ?_⟩
  · intro w req m hm hp
    have hc : isCleanPath "/user" = true := by decide
    simp only [Server.ServeHTTP, hm, hp, hc, Match_create db, if_true]
    rfl
  · intro id w req m hne hs h1 h2
    refine ⟨?_, ?_, ?_, ?_⟩
    · intro hm hp
      simp only [Server.ServeHTTP, hm, hp, isCleanPath_user_id id hs h1 h2,
        Match_get db id hs hne, if_true]
      rfl
    · intro hm hp
      simp only [Server.ServeHTTP, hm, hp, isCleanPath_user_id id hs h1 h2,
        Match_delete db id hs hne, if_true]
      rfl
    · intro hm hp
      simp only [Server.ServeHTTP, hm, hp, path_take,
        isCleanPath_user_id_op id "take" hs hne h1 h2 (by decide) (by decide) (by decide),
        Match_take db id hs hne, if_true]
      rfl
    · intro hm hp
      simp only [Server.ServeHTTP, hm, hp, path_fund,
        isCleanPath_user_id_op id "fund" hs hne h1 h2 (by decide) (by decide) (by decide),
        Match_fund db id hs hne, if_true]
      rfl
  · intro w req m
    rcases takeUserBonusPoints_outcome J (NewServer db) w req m with ⟨_, h⟩ | ⟨p, id, _, _, hc, _⟩
    · exact Or.inl (by rw [h])
    · exact Or.inr ⟨p, id, hc⟩
  · intro w req m
    rcases addUserBonusPoints_outcome J (NewServer db) w req m with ⟨_, h⟩ | ⟨p, id, _, _, hc, _⟩
    · exact Or.inl (by rw [h])
    · exact Or.inr ⟨p, id, hc⟩
  · intro w req m r hr
    unfold Server.ServeHTTP at hr
    split at hr
    · split at hr
      · cases hr
        exact handle_calls J (NewServer db) _ w _ m
      · cases hr
    · cases hr

/-- The router on `POST /user/7/take` with 12 points in the body: `takeUserBonusPoints`
runs with `id` bound to `7`, and the one call is `TakeUserBalance`. -/
theorem NewServer_routing_witness :
    (NewServer (mockService ("", none) (none, none) none)).ServeHTTP sampleJSON NewRecorder
        (routedRequest "POST" ("/user/" ++ "7" ++ "/take") "\x7b\"points\":12\x7d") (World.fresh ())
      = some (⟨200, false, ""⟩, ⟨(), [Call.TakeUserBalance () "7" (Num.int 12)]⟩) :=
  ((NewServer_routing sampleJSON (mockService ("", none) (none, none) none)).2.2.1 "7"
    NewRecorder (routedRequest "POST" ("/user/" ++ "7" ++ "/take") "\x7b\"points\":12\x7d")
    (World.fresh ())
    (by decide) (by decide) (by decide) (by decide)).2.2.1 rfl rfl

/-! ## The ledger behind TakeUserBalance -/

/-- C9. Overdraw rejection. In a store whose balances are all non-negative, for every user
`u` and amount `t` with `t > balance(u)`, `take(u, t)` fails with `InsufficientFunds` and
leaves the store, and so `balance(u)`, unchanged. After any `take`, whatever its
arguments, every balance of the store is still non-negative. -/
theorem take_overdraw_rejected (s : Store) (hinv : s.nonNegative) (id : String) (u : User ℚ)
    (t : ℚ) (hu : s id = some u) (ht : t > u.Balance) :
    (take s id t).1 = .error .InsufficientFunds ∧
      (take s id t).2 = s ∧
      balance (take s id t).2 id = some u.Balance ∧
      ∀ id1 t1, (take s id1 t1).2.nonNegative := by
  have h0 : ¬ t < 0 := not_lt.mpr (le_trans (hinv id u hu) (le_of_lt ht))
  have hb : ¬ u.Balance ≥ t := not_le.mpr ht
  have e : take s id t = (.error .InsufficientFunds, s) := by
    simp [take, Store.updateIfPresent, h0, hu, hb]
  rw [e]
  exact ⟨rfl, rfl, by simp [balance, hu], fun id1 t1 => take_nonNegative s hinv id1 t1⟩

/-- A take of 150 from the user `u1`, who holds 100. -/
theorem take_overdraw_rejected_witness :
    (take sampleStore "u1" 150).1 = .error .InsufficientFunds ∧
      (take sampleStore "u1" 150).2 = sampleStore ∧
      balance (take sampleStore "u1" 150).2 "u1" = some 100 :=
  have h := take_overdraw_rejected sampleStore sampleStore_nonNegative "u1"
    ⟨"u1", "Gennadiy", 100⟩ 150 rfl (by norm_num)
  ⟨h.1, h.2.1, h.2.2.1⟩

/-! ## The handlers and the service -/

/-- C10. The handlers call the service one to one and validate nothing. For each of the
five handlers and every request: the handler adds at most one call to the trace; when it
answers 400 it adds none and the service is as before; and the call carries the decoded
and bound arguments as they are: the name of the decoded user (the empty string when the
body gives none), the path id, the decoded points (negative ones too). -/
theorem handlers_forward_to_service (J : JSON F) (db : Service F Ctx σ) (req : Request Ctx)
    (m : World F Ctx σ) (h : HandlerName) :
    let r := (NewServer db).handle J h NewRecorder req m
    (r.2.calls = m.calls ∨ ∃ c, r.2.calls = m.calls ++ [c]) ∧
      (r.1.StatusCode = 400 → r.2.calls = m.calls ∧ r.2.state = m.state) ∧
      (∀ user, h = .createNewUser → J.decodeUser req.Body = .ok user →
        r.2.calls = m.calls ++ [Call.AddUser req.ctx user.Name]) ∧
      (∀ id, h = .getUserInfo → req.Vars.lookup "id" = some id →
        r.2.calls = m.calls ++ [Call.GetUser req.ctx id]) ∧
      (∀ id, h = .removeUser → req.Vars.lookup "id" = some id →
        r.2.calls = m.calls ++ [Call.DeleteUser req.ctx id]) ∧
      (∀ p id, h = .takeUserBonusPoints → J.decodePoints req.Body = .ok p →
        req.Vars.lookup "id" = some id →
        r.2.calls = m.calls ++ [Call.TakeUserBalance req.ctx id p]) ∧
      (∀ p id, h = .addUserBonusPoints → J.decodePoints req.Body = .ok p →
        req.Vars.lookup "id" = some id →
        r.2.calls = m.calls ++ [Call.FundUserBalance req.ctx id p]) := by
  intro r
  have hr : r = (NewServer db).handle J h NewRecorder req m := rfl
  clear_value r
  have h500 : (NewRecorder.WriteHeader StatusInternalServerError).StatusCode ≠ 400 := by decide
  have h200 : ∀ b, (NewRecorder.Write b).StatusCode ≠ 400 := fun b => by
    rw [NewRecorder_Write]; simp [ResponseRecorder.StatusCode]
  have hnew : NewRecorder.StatusCode ≠ 400 := by decide
  cases h with
  | createNewUser =>
    have hr1 : r = (NewServer db).createNewUser J NewRecorder req m := hr
    rcases createNewUser_outcome J (NewServer db) NewRecorder req m with
      ⟨⟨e, he⟩, h⟩ | ⟨user, hd, hc, hw⟩
    · rw [hr1, h]
      refine ⟨Or.inl rfl, fun _ => ⟨rfl, rfl⟩, ?_, ?_, ?_, ?_, ?_⟩
      · intro user1 _ hd1
        rw [he] at hd1
        cases hd1
      all_goals intros; contradiction
    · rw [hr1]
      refine ⟨Or.inr ⟨_, hc⟩, ?_, ?_, ?_, ?_, ?_, ?_⟩
      · intro h400
        rcases hw with hw | ⟨b, hw⟩
        · rw [hw] at h400; exact absurd h400 h500
        · rw [hw] at h400; exact absurd h400 (h200 b)
      · intro user1 _ hd1
        rw [hd] at hd1
        cases hd1
        exact hc
      all_goals intros; contradiction
  | getUserInfo =>
    have hr1 : r = (NewServer db).getUserInfo J NewRecorder req m := hr
    rcases getUserInfo_outcome J (NewServer db) NewRecorder req m with
      ⟨hn, h⟩ | ⟨id, hid, hc, hw⟩
    · rw [hr1, h]
      refine ⟨Or.inl rfl, fun _ => ⟨rfl, rfl⟩, ?_, ?_, ?_, ?_, ?_⟩
      · intros; contradiction
      · intro id1 _ hid1
        rw [hn] at hid1
        cases hid1
      all_goals intros; contradiction
    · rw [hr1]
      refine ⟨Or.inr ⟨_, hc⟩, ?_, ?_, ?_, ?_, ?_, ?_⟩
      · intro h400
        rcases hw with hw | ⟨b, hw⟩
        · rw [hw] at h400; exact absurd h400 h500
        · rw [hw] at h400; exact absurd h400 (h200 b)
      · intros; contradiction
      · intro id1 _ hid1
        rw [hid] at hid1
        cases hid1
        exact hc
      all_goals intros; contradiction
  | removeUser =>
    have hr1 : r = (NewServer db).removeUser NewRecorder req m := hr
    rcases removeUser_outcome (NewServer db) NewRecorder req m with
      ⟨hn, h⟩ | ⟨id, hid, hc, hw⟩
    · rw [hr1, h]
      refine ⟨Or.inl rfl, fun _ => ⟨rfl, rfl⟩, ?_, ?_, ?_, ?_, ?_⟩
      · intros; contradiction
      · intros; contradiction
      · intro id1 _ hid1
        rw [hn] at hid1
        cases hid1
      all_goals intros; contradiction
    · rw [hr1]
      refine ⟨Or.inr ⟨_, hc⟩, ?_, ?_, ?_, ?_, ?_, ?_⟩
      · intro h400
        rcases hw with hw | hw
        · rw [hw] at h400; exact absurd h400 h500
        · rw [hw] at h400; exact absurd h400 hnew
      · intros; contradiction
      · intros; contradiction
      · intro id1 _ hid1
        rw [hid] at hid1
        cases hid1
        exact hc
      all_goals intros; contradiction
  | takeUserBonusPoints =>
    have hr1 : r = (NewServer db).takeUserBonusPoints J NewRecorder req m := hr
    rcases takeUserBonusPoints_outcome J (NewServer db) NewRecorder req m with
      ⟨hn, h⟩ | ⟨p, id, hp, hid, hc, hw⟩
    · rw [hr1, h]
      refine ⟨Or.inl rfl, fun _ => ⟨rfl, rfl⟩, ?_, ?_, ?_, ?_, ?_⟩
      · intros; contradiction
      · intros; contradiction
      · intros; contradiction
      · intro p1 id1 _ hp1 hid1
        rcases hn with ⟨e, he⟩ | hn
        · rw [he] at hp1; cases hp1
        · rw [hn] at hid1; cases hid1
      · intros; contradiction
    · rw [hr1]
      refine ⟨Or.inr ⟨_, hc⟩, ?_, ?_, ?_, ?_, ?_, ?_⟩
      · intro h400
        rcases hw with hw | hw
        · rw [hw] at h400; exact absurd h400 h500
        · rw [hw] at h400; exact absurd h400 hnew
      · intros; contradiction
      · intros; contradiction
      · intros; contradiction
      · intro p1 id1 _ hp1 hid1
        rw [hp] at hp1
        rw [hid] at hid1
        cases hp1
        cases hid1
        exact hc
      · intros; contradiction
  | addUserBonusPoints =>
    have hr1 : r = (NewServer db).addUserBonusPoints J NewRecorder req m := hr
    rcases addUserBonusPoints_outcome J (NewServer db) NewRecorder req m with
      ⟨hn, h⟩ | ⟨p, id, hp, hid, hc, hw⟩
    · rw [hr1, h]
      refine ⟨Or.inl rfl, fun _ => ⟨rfl, rfl⟩, ?_, ?_, ?_, ?_, ?_⟩
      · intros; contradiction
      · intros; contradiction
      · intros; contradiction
      · intros; contradiction
      · intro p1 id1 _ hp1 hid1
        rcases hn with ⟨e, he⟩ | hn
        · rw [he] at hp1; cases hp1
        · rw [hn] at hid1; cases hid1
    · rw [hr1]
      refine ⟨Or.inr ⟨_, hc⟩, ?_, ?_, ?_, ?_, ?_, ?_⟩
      · intro h400
        rcases hw with hw | hw
        · rw [hw] at h400; exact absurd h400 h500
        · rw [hw] at h400; exact absurd h400 hnew
      · intros; contradiction
      · intros; contradiction
      · intros; contradiction
      · intros; contradiction
      · intro p1 id1 _ hp1 hid1
        rw [hp] at hp1
        rw [hid] at hid1
        cases hp1
        cases hid1
        exact hc

/-- A body without a name reaches `AddUser` as the empty string, and a take of -12 points
reaches `TakeUserBalance` as -12. -/
theorem handlers_forward_to_service_witness :
    ((NewServer (mockService ("code_str", none) (none, none) none)).handle sampleJSON
        .createNewUser NewRecorder (routedRequest "POST" "/user" "\x7b\x7d") (World.fresh ())).2.calls
        = [] ++ [Call.AddUser () ""] ∧
      ((NewServer (mockService ("code_str", none) (none, none) none)).handle sampleJSON
        .takeUserBonusPoints NewRecorder
        (userRequest "POST" "/user/7/take" "\x7b\"points\":-12\x7d" "7") (World.fresh ())).2.calls
        = [] ++ [Call.TakeUserBalance () "7" (Num.int (-12))] :=
  ⟨(handlers_forward_to_service sampleJSON (mockService ("code_str", none) (none, none) none)
      (routedRequest "POST" "/user" "\x7b\x7d") (World.fresh ()) .createNewUser).2.2.1
      ⟨"", "", Num.int 0⟩ rfl rfl,
    (handlers_forward_to_service sampleJSON (mockService ("code_str", none) (none, none) none)
      (userRequest "POST" "/user/7/take" "\x7b\"points\":-12\x7d" "7") (World.fresh ())
      .takeUserBonusPoints).2.2.2.2.2.1 (Num.int (-12)) "7" rfl rfl rfl⟩

end claims

end server
